import Mathlib

/-!
Shallow embedding of `coverage_lcov/converter.py`, the single source file of
the coverage-lcov repository, together with proofs about the claims of its
specification.

Modelling conventions:
* Line numbers are natural numbers; physical source lines are indexed from 1,
  mirroring the Python `enumerate(token_lines, 1)`.
* The `Analysis` object of the external coverage collaborator is modelled by the
  two line-number sets the converter reads from it (`statements`, `missing`).
* Exceptions are modelled with `Except`; the `_analyze` call of the collaborator is
  modelled by a per-file stored result of type `Except ReportError Analysis`
  (in the Python code every fallible collaborator call of the per-file loop
  body runs before the first `output +=` of that file, so one failure point
  before any output is a faithful rendering of the `try` block).
* Each `output += "...\n"` of the Python code appends one line; output is a
  `List LcovLine` of structured lines, and `renderLine`/`renderOutput` produce
  the exact strings of the Python f-strings.
* Warnings issued through `self.cov_obj._warn` are collected in a list; the
  Python message is `"Couldn\x27t parse Python file \x27{filename}\x27"` with slug
  `couldnt-parse`; the model records the filename of the warned file.
* Glob patterns are modelled abstractly as match functions
  `String → Bool` (the `GlobMatcher` capability of the collaborator); a matcher
  built from a pattern list matches iff at least one pattern matches.
-/

namespace CoverageLcov

/-- Per-file analysis data supplied by the coverage collaborator
(`coverage.results.Analysis`): the set of executable ("statement") line
numbers and the subset of line numbers that were not executed ("missing"). -/
structure Analysis where
  statements : Finset ℕ
  missing : Finset ℕ
deriving DecidableEq

/-- `get_hits` (converter.py lines 156-163): `0` if the line is in the missed
set, `None` if it is (otherwise) not a statement line, `1` otherwise. -/
def get_hits (line_num : ℕ) (analysis : Analysis) : Option ℕ :=
  if line_num ∈ analysis.missing then some 0
  else if line_num ∉ analysis.statements then none
  else some 1

/-- Exceptions that can reach the converter: `CoverageException` with its
message (used for "No data to report."), and the two subclasses caught in the
per-file loop, `NoSource` and `NotPython`. -/
inductive ReportError where
  | coverageException (msg : String)
  | noSource
  | notPython
deriving DecidableEq

instance {ε α : Type} [DecidableEq ε] [DecidableEq α] : DecidableEq (Except ε α) :=
  fun a b =>
    match a, b with
    | Except.ok x, Except.ok y =>
      if h : x = y then isTrue (by rw [h]) else isFalse (fun hc => h (Except.ok.inj hc))
    | Except.error x, Except.error y =>
      if h : x = y then isTrue (by rw [h]) else isFalse (fun hc => h (Except.error.inj hc))
    | Except.ok _, Except.error _ => isFalse (fun hc => Except.noConfusion hc)
    | Except.error _, Except.ok _ => isFalse (fun hc => Except.noConfusion hc)

/-- A file reporter together with the data the converter extracts from the
collaborator for it: both path forms, the `should_be_python()` flag, the
number of physical token lines (`len(source_token_lines())`, only the count is
used by the loop), and the outcome of `self.cov_obj._analyze(...)` for it. -/
structure FileReporter where
  filename : String
  relativeFilename : String
  shouldBePython : Bool
  tokenLineCount : ℕ
  analysisResult : Except ReportError Analysis
deriving DecidableEq

/-- The configuration surface read by the converter: `report_include`,
`report_omit` (lists of abstract glob-pattern matchers) and `ignore_errors`. -/
structure Config where
  report_include : List (String → Bool)
  report_omit : List (String → Bool)
  ignore_errors : Bool

/-- A `GlobMatcher` built from a list of patterns matches a name iff the name
matches at least one of the patterns. -/
def matcherMatch (patterns : List (String → Bool)) (name : String) : Bool :=
  patterns.any (fun p => p name)

/-- The filtering part of `Converter.get_file_reporters` (lines 64-76): when
`report_include` is non-empty keep only matching files, then when
`report_omit` is non-empty drop matching files. -/
def applyFilters (config : Config) (file_reporters : List FileReporter) : List FileReporter :=
  let frs1 := if config.report_include.isEmpty then file_reporters
    else file_reporters.filter (fun fr => matcherMatch config.report_include fr.filename)
  if config.report_omit.isEmpty then frs1
  else frs1.filter (fun fr => !matcherMatch config.report_omit fr.filename)

/-- `Converter.get_file_reporters` (lines 54-81): filter, then fail with
`CoverageException("No data to report.")` if nothing remains. -/
def get_file_reporters (config : Config) (file_reporters : List FileReporter) :
    Except ReportError (List FileReporter) :=
  let frs := applyFilters config file_reporters
  if frs.isEmpty then Except.error (ReportError.coverageException "No data to report.")
  else Except.ok frs

/-- One line of LCOV output, as a structured value. `renderLine` gives the
exact text the Python code appends (without the trailing newline). -/
inductive LcovLine where
  | tn
  | sf (filename : String)
  | da (line hit : ℕ)
  | lf (n : ℕ)
  | lh (n : ℕ)
  | endOfRecord
deriving DecidableEq

/-- The text of one output line, exactly as formatted by the f-strings of
`Converter.get_lcov` (lines 106-119). -/
def renderLine : LcovLine → String
  | LcovLine.tn => "TN:"
  | LcovLine.sf filename => "SF:" ++ filename
  | LcovLine.da line hit => "DA:" ++ toString line ++ "," ++ toString hit
  | LcovLine.lf n => "LF:" ++ toString n
  | LcovLine.lh n => "LH:" ++ toString n
  | LcovLine.endOfRecord => "end_of_record"

/-- The accumulated output string: each line is appended followed by a
newline, exactly as each `output += f"...\n"` does. -/
def renderOutput (output : List LcovLine) : String :=
  String.join (output.map (fun line => renderLine line ++ "\n"))

/-- The per-line loop of `Converter.get_lcov` (lines 110-115): iterate the
given physical line numbers, keeping the running `lines_hit` counter and the
accumulated `DA:` lines. For each line `i`, `hits = get_hits(i, analysis)`;
if it is not `None`, increment `lines_hit` when `hits > 0` and append
`DA:{i},{hits}`. -/
def da_fold (analysis : Analysis) : List ℕ → ℕ → List LcovLine → ℕ × List LcovLine
  | [], lines_hit, out => (lines_hit, out)
  | i :: rest, lines_hit, out =>
    match get_hits i analysis with
    | none => da_fold analysis rest lines_hit out
    | some hits =>
        da_fold analysis rest (if 0 < hits then lines_hit + 1 else lines_hit)
          (out ++ [LcovLine.da i hits])

/-- The block emitted for one successfully analyzed file (loop body of
`Converter.get_lcov`, lines 100-119): `TN:`, `SF:` with the relative or
absolute filename, the `DA:` lines for physical lines `1..tokenLineCount`,
then `LF:` with `len(analysis.statements)`, `LH:` with the `lines_hit`
counter, and `end_of_record`. -/
def fileBlock (relative_path : Bool) (fr : FileReporter) (analysis : Analysis) : List LcovLine :=
  let filename := if relative_path then fr.relativeFilename else fr.filename
  let result := da_fold analysis (List.range' 1 fr.tokenLineCount) 0 []
  [LcovLine.tn, LcovLine.sf filename] ++ result.2 ++
    [LcovLine.lf analysis.statements.card, LcovLine.lh result.1, LcovLine.endOfRecord]

/-- The per-file iteration of `Converter.get_lcov` (lines 95-136) over an
already sorted reporter list. Returns the warnings issued and the output
lines, or the propagated error. A file whose analysis fails with `NoSource`
is skipped when `ignore_errors` is set, else the error propagates; on
`NotPython`, if `should_be_python()` then either a warning is recorded and
the file skipped (`ignore_errors`) or the error propagates, and otherwise the
exception is swallowed silently; any other collaborator error propagates. -/
def process_files (relative_path : Bool) (config : Config) :
    List FileReporter → Except ReportError (List String × List LcovLine)
  | [] => Except.ok ([], [])
  | fr :: rest =>
    match fr.analysisResult with
    | Except.ok analysis =>
      match process_files relative_path config rest with
      | Except.error e => Except.error e
      | Except.ok (warnings, out) =>
          Except.ok (warnings, fileBlock relative_path fr analysis ++ out)
    | Except.error ReportError.noSource =>
        if config.ignore_errors then process_files relative_path config rest
        else Except.error ReportError.noSource
    | Except.error ReportError.notPython =>
        if fr.shouldBePython then
          if config.ignore_errors then
            match process_files relative_path config rest with
            | Except.error e => Except.error e
            | Except.ok (warnings, out) => Except.ok (fr.filename :: warnings, out)
          else Except.error ReportError.notPython
        else process_files relative_path config rest
    | Except.error (ReportError.coverageException msg) =>
        Except.error (ReportError.coverageException msg)

/-- The ordering used by the Python `sorted(file_reporters)` call: the
`FileReporter.__lt__` of coverage compares the `filename` attributes. -/
def reporterLE (a b : FileReporter) : Prop := a.filename ≤ b.filename

instance : DecidableRel reporterLE :=
  fun a b => inferInstanceAs (Decidable (a.filename ≤ b.filename))

instance : IsTotal FileReporter reporterLE := ⟨fun a b => le_total a.filename b.filename⟩

instance : IsTrans FileReporter reporterLE := ⟨fun _ _ _ h1 h2 => le_trans h1 h2⟩

/-- `sorted(file_reporters)`: a stable sort by `reporterLE` (the Python sort is
stable; insertion sort computes the same stable result). -/
def sortReporters (file_reporters : List FileReporter) : List FileReporter :=
  List.insertionSort reporterLE file_reporters

/-- `Converter.get_lcov` (lines 83-138): list the eligible reporters
(propagating `CoverageException` when none remain), then process them in
sorted order. -/
def get_lcov (relative_path : Bool) (config : Config) (file_reporters : List FileReporter) :
    Except ReportError (List String × List LcovLine) :=
  match get_file_reporters config file_reporters with
  | Except.error e => Except.error e
  | Except.ok frs => process_files relative_path config (sortReporters frs)

/-- One write performed on the output file. -/
structure FileWrite where
  path : String
  data : String
deriving DecidableEq

/-- `Converter.create_lcov` (lines 149-153): `get_lcov` runs to completion
first; only then is the destination opened and the fully built string written.
The model returns the trace of writes performed together with the propagated
error, if any: an error raised inside `get_lcov` escapes before `open`, so the
write trace is empty in that case. -/
def create_lcov (relative_path : Bool) (config : Config) (file_reporters : List FileReporter)
    (output_file_path : String) : List FileWrite × Option ReportError :=
  match get_lcov relative_path config file_reporters with
  | Except.error e => ([], some e)
  | Except.ok result => ([⟨output_file_path, renderOutput result.2⟩], none)

/-- Whether line `i` contributes to the `lines_hit` counter: its `get_hits`
value exists and is positive. -/
def hitP (analysis : Analysis) (i : ℕ) : Bool :=
  match get_hits i analysis with
  | none => false
  | some hits => decide (0 < hits)

/-- The `DA:` line emitted for line `i`, if any. -/
def daOf (analysis : Analysis) (i : ℕ) : Option LcovLine :=
  (get_hits i analysis).map (fun hits => LcovLine.da i hits)

theorem da_fold_spec (analysis : Analysis) (l : List ℕ) (n : ℕ) (out : List LcovLine) :
    da_fold analysis l n out =
      (n + l.countP (hitP analysis), out ++ l.filterMap (daOf analysis)) := by
  induction l generalizing n out with
  | nil => simp [da_fold]
  | cons i rest ih =>
    simp only [da_fold]
    cases h : get_hits i analysis with
    | none =>
      dsimp only
      rw [ih]
      simp [List.countP_cons, List.filterMap_cons, hitP, daOf, h]
    | some hits =>
      dsimp only
      rw [ih, List.countP_cons, List.filterMap_cons]
      have hd : daOf analysis i = some (LcovLine.da i hits) := by simp [daOf, h]
      have hq : hitP analysis i = decide (0 < hits) := by simp [hitP, h]
      rw [hd, hq]
      by_cases h0 : 0 < hits
      · rw [if_pos h0, decide_eq_true h0]
        simp
        all_goals omega
      · rw [if_neg h0, decide_eq_false h0]
        simp

theorem get_hits_of_subset (analysis : Analysis)
    (hsub : analysis.missing ⊆ analysis.statements) (i : ℕ) :
    get_hits i analysis =
      if i ∈ analysis.statements then some (if i ∈ analysis.missing then 0 else 1)
      else none := by
  unfold get_hits
  by_cases hm : i ∈ analysis.missing
  · simp [hm, hsub hm]
  · by_cases hs : i ∈ analysis.statements <;> simp [hm, hs]

theorem filterMap_guard {α β : Type} (p : α → Bool) (f : α → β) (l : List α) :
    l.filterMap (fun x => if p x then some (f x) else none) = (l.filter p).map f := by
  induction l with
  | nil => rfl
  | cons a l ih =>
    by_cases h : p a <;> simp [List.filterMap_cons, List.filter_cons, h, ih]

theorem filter_mem_eq_sort (l : List ℕ) (F : Finset ℕ) (hnd : l.Nodup)
    (hsort : l.Sorted (· ≤ ·)) (hmem : ∀ s ∈ F, s ∈ l) :
    l.filter (fun i => decide (i ∈ F)) = F.sort (· ≤ ·) := by
  have hperm : (l.filter (fun i => decide (i ∈ F))).Perm (F.sort (· ≤ ·)) := by
    apply List.perm_of_nodup_nodup_toFinset_eq
    · exact hnd.filter _
    · exact F.sort_nodup _
    · ext a
      simp only [List.mem_toFinset, List.mem_filter, decide_eq_true_eq, Finset.mem_sort]
      exact ⟨fun h => h.2, fun h => ⟨hmem a h, h⟩⟩
  exact List.eq_of_perm_of_sorted hperm (hsort.sublist (List.filter_sublist l))
    (F.sort_sorted _)

theorem sorted_le_range' (s n : ℕ) : (List.range' s n).Sorted (· ≤ ·) :=
  (List.pairwise_lt_range' s n 1 (by omega)).imp le_of_lt

theorem mem_range'_iff (a T : ℕ) : a ∈ List.range' 1 T ↔ 1 ≤ a ∧ a ≤ T := by
  rw [List.mem_range'_1]
  omega

theorem fileBlock_parts (relative_path : Bool) (fr : FileReporter) (analysis : Analysis) :
    fileBlock relative_path fr analysis =
      [LcovLine.tn, LcovLine.sf (if relative_path then fr.relativeFilename else fr.filename)] ++
      (List.range' 1 fr.tokenLineCount).filterMap (daOf analysis) ++
      [LcovLine.lf analysis.statements.card,
       LcovLine.lh ((List.range' 1 fr.tokenLineCount).countP (hitP analysis)),
       LcovLine.endOfRecord] := by
  unfold fileBlock
  rw [da_fold_spec]
  simp

theorem fileBlock_eq (relative_path : Bool) (fr : FileReporter) (analysis : Analysis)
    (hsub : analysis.missing ⊆ analysis.statements)
    (hrange : ∀ s ∈ analysis.statements, 1 ≤ s ∧ s ≤ fr.tokenLineCount) :
    fileBlock relative_path fr analysis =
      [LcovLine.tn, LcovLine.sf (if relative_path then fr.relativeFilename else fr.filename)] ++
      (analysis.statements.sort (· ≤ ·)).map
        (fun l => LcovLine.da l (if l ∈ analysis.missing then 0 else 1)) ++
      [LcovLine.lf analysis.statements.card,
       LcovLine.lh (analysis.statements \ analysis.missing).card,
       LcovLine.endOfRecord] := by
  rw [fileBlock_parts]
  have hda : (List.range' 1 fr.tokenLineCount).filterMap (daOf analysis) =
      (analysis.statements.sort (· ≤ ·)).map
        (fun l => LcovLine.da l (if l ∈ analysis.missing then 0 else 1)) := by
    have h1 : (daOf analysis) = fun i =>
        if decide (i ∈ analysis.statements) then
          some (LcovLine.da i (if i ∈ analysis.missing then 0 else 1))
        else none := by
      funext i
      rw [daOf, get_hits_of_subset analysis hsub i]
      by_cases hs : i ∈ analysis.statements <;> simp [hs]
    rw [h1, filterMap_guard]
    rw [filter_mem_eq_sort _ _ (List.nodup_range' 1 fr.tokenLineCount)
      (sorted_le_range' 1 fr.tokenLineCount)
      (fun s hs => (mem_range'_iff s fr.tokenLineCount).2 (hrange s hs))]
  have hcount : (List.range' 1 fr.tokenLineCount).countP (hitP analysis) =
      (analysis.statements \ analysis.missing).card := by
    have h1 : (hitP analysis) = fun i => decide (i ∈ analysis.statements \ analysis.missing) := by
      funext i
      rw [hitP]
      rw [get_hits_of_subset analysis hsub i]
      by_cases hs : i ∈ analysis.statements
      · by_cases hm : i ∈ analysis.missing <;> simp [hs, hm, Finset.mem_sdiff]
      · simp [hs, Finset.mem_sdiff]
    rw [h1, List.countP_eq_length_filter]
    rw [filter_mem_eq_sort _ _ (List.nodup_range' 1 fr.tokenLineCount)
      (sorted_le_range' 1 fr.tokenLineCount)
      (fun s hs => (mem_range'_iff s fr.tokenLineCount).2
        (hrange s (Finset.mem_sdiff.1 hs).1))]
    exact Finset.length_sort _
  rw [hda, hcount]

theorem da_mem_fileBlock (relative_path : Bool) (fr : FileReporter) (analysis : Analysis)
    (l h : ℕ) :
    LcovLine.da l h ∈ fileBlock relative_path fr analysis ↔
      l ∈ List.range' 1 fr.tokenLineCount ∧ get_hits l analysis = some h := by
  have hfm : LcovLine.da l h ∈ (List.range' 1 fr.tokenLineCount).filterMap (daOf analysis) ↔
      l ∈ List.range' 1 fr.tokenLineCount ∧ get_hits l analysis = some h := by
    rw [List.mem_filterMap]
    constructor
    · rintro ⟨i, hi, hdi⟩
      simp only [daOf, Option.map_eq_some'] at hdi
      rcases hdi with ⟨hits, hh, heq⟩
      cases heq
      exact ⟨hi, hh⟩
    · rintro ⟨hmem, hh⟩
      exact ⟨l, hmem, by simp [daOf, hh]⟩
  rw [fileBlock_parts]
  constructor
  · intro hmem
    rcases List.mem_append.1 hmem with h1 | h2
    · rcases List.mem_append.1 h1 with h3 | h4
      · exact absurd h3 (by simp)
      · exact hfm.1 h4
    · exact absurd h2 (by simp)
  · intro h1
    exact List.mem_append.2 (Or.inl (List.mem_append.2 (Or.inr (hfm.2 h1))))

/-- Whether an output line is a `DA:` record with hit count 0. -/
def isZeroDa : LcovLine → Bool
  | LcovLine.da _ 0 => true
  | _ => false

/-- Claim C1: for every eligible file whose statement-line set `S` is
non-empty, whose missed set `M` is a subset of `S`, and whose physical
token-line count is at least the maximum element of `S` (line numbers are
1-based physical line indices), the emitted block is, in order: `TN:`,
`SF:<filename>`, one `DA:<line>,<hit>` line per element of `S` in ascending
line order with hit 0 exactly for the lines in `M` and hit 1 otherwise, then
`LF:|S|`, `LH:|S minus M|`, `end_of_record`. -/
theorem C1_block_structure (relative_path : Bool) (fr : FileReporter) (analysis : Analysis)
    (hne : analysis.statements.Nonempty)
    (hsub : analysis.missing ⊆ analysis.statements)
    (hpos : ∀ s ∈ analysis.statements, 1 ≤ s)
    (hmax : analysis.statements.max' hne ≤ fr.tokenLineCount) :
    fileBlock relative_path fr analysis =
      [LcovLine.tn, LcovLine.sf (if relative_path then fr.relativeFilename else fr.filename)] ++
      (analysis.statements.sort (· ≤ ·)).map
        (fun l => LcovLine.da l (if l ∈ analysis.missing then 0 else 1)) ++
      [LcovLine.lf analysis.statements.card,
       LcovLine.lh (analysis.statements \ analysis.missing).card,
       LcovLine.endOfRecord] :=
  fileBlock_eq relative_path fr analysis hsub
    (fun s hs => ⟨hpos s hs, le_trans (Finset.le_max' _ s hs) hmax⟩)

/-- Witness for C1 at the example given in the specification: statement lines
`{1, 2, 3, 5}`, missed `{2}`, five physical lines. -/
theorem C1_block_structure_witness :
    fileBlock false ⟨"a.py", "a.py", true, 5, Except.ok ⟨{1, 2, 3, 5}, {2}⟩⟩
        ⟨{1, 2, 3, 5}, {2}⟩ =
      [LcovLine.tn,
       LcovLine.sf (if false then
         (⟨"a.py", "a.py", true, 5, Except.ok ⟨{1, 2, 3, 5}, {2}⟩⟩ :
           FileReporter).relativeFilename
         else (⟨"a.py", "a.py", true, 5, Except.ok ⟨{1, 2, 3, 5}, {2}⟩⟩ :
           FileReporter).filename)] ++
      ((⟨{1, 2, 3, 5}, {2}⟩ : Analysis).statements.sort (· ≤ ·)).map
        (fun l => LcovLine.da l (if l ∈ (⟨{1, 2, 3, 5}, {2}⟩ : Analysis).missing then 0 else 1)) ++
      [LcovLine.lf (⟨{1, 2, 3, 5}, {2}⟩ : Analysis).statements.card,
       LcovLine.lh ((⟨{1, 2, 3, 5}, {2}⟩ : Analysis).statements \
         (⟨{1, 2, 3, 5}, {2}⟩ : Analysis).missing).card,
       LcovLine.endOfRecord] :=
  C1_block_structure false ⟨"a.py", "a.py", true, 5, Except.ok ⟨{1, 2, 3, 5}, {2}⟩⟩
    ⟨{1, 2, 3, 5}, {2}⟩ (by decide) (by decide) (by decide) (by decide)

/-- Claim C2: `get_hits` returns 0 when the line is in the missed set,
"not applicable" (`none`) when it is (otherwise) not a statement line, and 1
otherwise — the three cases read in the order the code checks them — and for
every physical line of a file a `DA:` record is emitted for it iff this
result is not `none`. -/
theorem C2_get_hits_contract (analysis : Analysis) (l : ℕ) :
    (l ∈ analysis.missing → get_hits l analysis = some 0) ∧
    (l ∉ analysis.missing → l ∉ analysis.statements → get_hits l analysis = none) ∧
    (l ∉ analysis.missing → l ∈ analysis.statements → get_hits l analysis = some 1) ∧
    (∀ (relative_path : Bool) (fr : FileReporter), l ∈ List.range' 1 fr.tokenLineCount →
      ((∃ h, LcovLine.da l h ∈ fileBlock relative_path fr analysis) ↔
        get_hits l analysis ≠ none)) := by
  refine ⟨?_, ?_, ?_, ?_⟩
  · intro hm
    simp [get_hits, hm]
  · intro hm hs
    simp [get_hits, hm, hs]
  · intro hm hs
    simp [get_hits, hm, hs]
  · intro relative_path fr hmem
    constructor
    · rintro ⟨h, hdam⟩
      rw [da_mem_fileBlock] at hdam
      rw [hdam.2]
      simp
    · intro hne
      cases hh : get_hits l analysis with
      | none => exact absurd hh hne
      | some hits =>
        exact ⟨hits, (da_mem_fileBlock relative_path fr analysis l hits).2 ⟨hmem, hh⟩⟩

/-- Witness for C2: on statement lines `{1, 2, 3, 5}` with missed `{2}`,
line 2 yields hit count 0 and line 4 yields "not applicable". -/
theorem C2_get_hits_contract_witness :
    get_hits 2 ⟨{1, 2, 3, 5}, {2}⟩ = some 0 ∧ get_hits 4 ⟨{1, 2, 3, 5}, {2}⟩ = none :=
  ⟨(C2_get_hits_contract ⟨{1, 2, 3, 5}, {2}⟩ 2).1 (by decide),
   (C2_get_hits_contract ⟨{1, 2, 3, 5}, {2}⟩ 4).2.1 (by decide) (by decide)⟩

/-- Counterexample to claim C3 as stated: with statement set `{2}`, no missed
lines, and a single physical token line, the emitted block carries `LH:0` and
no `DA:` line at all, yet `N - M = 1`; the claim fails without an assumption
relating statement line numbers to the physical token-line count. -/
theorem C3_lh_counterexample :
    fileBlock false ⟨"a.py", "a.py", true, 1, Except.ok ⟨{2}, ∅⟩⟩ ⟨{2}, ∅⟩ =
      [LcovLine.tn, LcovLine.sf "a.py", LcovLine.lf 1, LcovLine.lh 0,
       LcovLine.endOfRecord] ∧
    (⟨{2}, ∅⟩ : Analysis).statements.card - (⟨{2}, ∅⟩ : Analysis).missing.card = 1 := by
  constructor
  · decide
  · decide

/-- Claim C3 (amended): for every file whose missed set is a subset of its
statement set and whose statement lines all lie within `1..tokenLineCount`,
the emitted `LH:` value equals `N - M` and exactly `M` of the emitted `DA:`
lines carry hit count 0. -/
theorem C3_lh_and_zero_da_count (relative_path : Bool) (fr : FileReporter)
    (analysis : Analysis)
    (hsub : analysis.missing ⊆ analysis.statements)
    (hrange : ∀ s ∈ analysis.statements, 1 ≤ s ∧ s ≤ fr.tokenLineCount) :
    LcovLine.lh (analysis.statements.card - analysis.missing.card) ∈
      fileBlock relative_path fr analysis ∧
    (fileBlock relative_path fr analysis).countP isZeroDa = analysis.missing.card := by
  rw [fileBlock_eq relative_path fr analysis hsub hrange]
  constructor
  · rw [← Finset.card_sdiff hsub]
    simp
  · rw [List.countP_append, List.countP_append, List.countP_map]
    have h1 : List.countP isZeroDa
        [LcovLine.tn,
         LcovLine.sf (if relative_path then fr.relativeFilename else fr.filename)] = 0 := by
      simp [List.countP_cons, isZeroDa]
    have h3 : List.countP isZeroDa
        [LcovLine.lf analysis.statements.card,
         LcovLine.lh (analysis.statements \ analysis.missing).card,
         LcovLine.endOfRecord] = 0 := by
      simp [List.countP_cons, isZeroDa]
    have h2 : (analysis.statements.sort (· ≤ ·)).countP
        (isZeroDa ∘ fun l => LcovLine.da l (if l ∈ analysis.missing then 0 else 1)) =
        analysis.missing.card := by
      have hfun : (isZeroDa ∘ fun l => LcovLine.da l (if l ∈ analysis.missing then 0 else 1)) =
          fun i => decide (i ∈ analysis.missing) := by
        funext i
        by_cases hm : i ∈ analysis.missing <;> simp [isZeroDa, hm]
      rw [hfun, List.countP_eq_length_filter]
      rw [filter_mem_eq_sort _ _ (analysis.statements.sort_nodup _)
        (analysis.statements.sort_sorted _)
        (fun s hs => (Finset.mem_sort (α := ℕ) (· ≤ ·)).2 (hsub hs))]
      exact Finset.length_sort _
    rw [h1, h2, h3]
    omega

/-- Witness for C3 (amended) at statement lines `{1, 2, 3, 5}`, missed `{2}`,
five physical lines. -/
theorem C3_lh_and_zero_da_count_witness :
    LcovLine.lh ((⟨{1, 2, 3, 5}, {2}⟩ : Analysis).statements.card -
        (⟨{1, 2, 3, 5}, {2}⟩ : Analysis).missing.card) ∈
      fileBlock false ⟨"a.py", "a.py", true, 5, Except.ok ⟨{1, 2, 3, 5}, {2}⟩⟩
        ⟨{1, 2, 3, 5}, {2}⟩ ∧
    (fileBlock false ⟨"a.py", "a.py", true, 5, Except.ok ⟨{1, 2, 3, 5}, {2}⟩⟩
        ⟨{1, 2, 3, 5}, {2}⟩).countP isZeroDa =
      (⟨{1, 2, 3, 5}, {2}⟩ : Analysis).missing.card :=
  C3_lh_and_zero_da_count false ⟨"a.py", "a.py", true, 5, Except.ok ⟨{1, 2, 3, 5}, {2}⟩⟩
    ⟨{1, 2, 3, 5}, {2}⟩ (by decide) (by decide)

/-- Counterexample to claim C4 as stated: line 1 is absent from the statement
set but present in the missed set, and (the missed set being checked first by
`get_hits`) a `DA:1,0` record is emitted for it. -/
theorem C4_da_counterexample :
    LcovLine.da 1 0 ∈
      fileBlock false ⟨"a.py", "a.py", true, 1, Except.ok ⟨∅, {1}⟩⟩ ⟨∅, {1}⟩ ∧
    1 ∉ (⟨∅, {1}⟩ : Analysis).statements := by
  decide

/-- Claim C4 (amended): for every file and every line number absent from both
the statement-line set and the missed-lines set, the output never contains a
`DA:` record for that line number, regardless of the physical line count. -/
theorem C4_no_da_for_nonstatement (relative_path : Bool) (fr : FileReporter)
    (analysis : Analysis) (l : ℕ)
    (hs : l ∉ analysis.statements) (hm : l ∉ analysis.missing) (h : ℕ) :
    LcovLine.da l h ∉ fileBlock relative_path fr analysis := by
  intro hmem
  rw [da_mem_fileBlock] at hmem
  have hgh : get_hits l analysis = none := by simp [get_hits, hs, hm]
  rw [hgh] at hmem
  exact Option.noConfusion hmem.2

/-- Witness for C4 (amended): line 4 is neither a statement line nor missed,
so no `DA:4,_` record appears. -/
theorem C4_no_da_for_nonstatement_witness :
    LcovLine.da 4 1 ∉
      fileBlock false ⟨"a.py", "a.py", true, 5, Except.ok ⟨{1, 2, 3, 5}, {2}⟩⟩
        ⟨{1, 2, 3, 5}, {2}⟩ :=
  C4_no_da_for_nonstatement false ⟨"a.py", "a.py", true, 5, Except.ok ⟨{1, 2, 3, 5}, {2}⟩⟩
    ⟨{1, 2, 3, 5}, {2}⟩ 4 (by decide) (by decide) 1

/-- Strict version of the reporter ordering, used to show that sorting a list
of reporters with pairwise distinct filenames is order-independent. -/
def reporterLT (a b : FileReporter) : Prop := a.filename < b.filename

instance : IsAntisymm FileReporter reporterLT :=
  ⟨fun a _ h1 h2 => absurd (lt_trans h1 h2) (lt_irrefl a.filename)⟩

theorem applyFilters_sublist (config : Config) (file_reporters : List FileReporter) :
    (applyFilters config file_reporters).Sublist file_reporters := by
  unfold applyFilters
  by_cases h1 : config.report_include.isEmpty <;>
    by_cases h2 : config.report_omit.isEmpty <;>
    simp only [h1, h2, if_true, if_false] <;>
    first
      | exact List.Sublist.refl _
      | exact List.filter_sublist _
      | exact (List.filter_sublist _).trans (List.filter_sublist _)

theorem applyFilters_perm (config : Config) (l₁ l₂ : List FileReporter)
    (hperm : l₁.Perm l₂) :
    (applyFilters config l₁).Perm (applyFilters config l₂) := by
  unfold applyFilters
  by_cases h1 : config.report_include.isEmpty <;>
    by_cases h2 : config.report_omit.isEmpty <;>
    simp only [h1, h2, if_true, if_false] <;>
    first
      | exact hperm
      | exact hperm.filter _
      | exact (hperm.filter _).filter _

theorem sortReporters_eq_of_perm (l₁ l₂ : List FileReporter) (hperm : l₁.Perm l₂)
    (hnd : l₁.Pairwise (fun a b => a.filename ≠ b.filename)) :
    sortReporters l₁ = sortReporters l₂ := by
  have hsym : ∀ {x y : FileReporter}, x.filename ≠ y.filename → y.filename ≠ x.filename :=
    fun h => h.symm
  have hnd₁ : (sortReporters l₁).Pairwise (fun a b => a.filename ≠ b.filename) :=
    ((List.perm_insertionSort reporterLE l₁).pairwise_iff hsym).2 hnd
  have hnd₂ : (sortReporters l₂).Pairwise (fun a b => a.filename ≠ b.filename) :=
    ((List.perm_insertionSort reporterLE l₂).pairwise_iff hsym).2
      ((hperm.pairwise_iff hsym).1 hnd)
  have hp₁ : (sortReporters l₁).Pairwise reporterLE := List.sorted_insertionSort reporterLE l₁
  have hp₂ : (sortReporters l₂).Pairwise reporterLE := List.sorted_insertionSort reporterLE l₂
  have hs₁ : (sortReporters l₁).Sorted reporterLT :=
    List.Pairwise.imp₂ (fun _ _ hle hne => lt_of_le_of_ne hle hne) hp₁ hnd₁
  have hs₂ : (sortReporters l₂).Sorted reporterLT :=
    List.Pairwise.imp₂ (fun _ _ hle hne => lt_of_le_of_ne hle hne) hp₂ hnd₂
  exact List.eq_of_perm_of_sorted
    (((List.perm_insertionSort reporterLE l₁).trans hperm).trans
      (List.perm_insertionSort reporterLE l₂).symm)
    hs₁ hs₂

/-- Claim C5: with `ignore_errors` enabled and three eligible files of which
exactly one fails with `NoSource` (source unreachable) while the other two
succeed, report generation raises no error and returns exactly the two
complete blocks of the successful files, with no text (and no warning)
contributed by the failing file. -/
theorem C5_ignore_missing_source (relative_path : Bool) (config : Config)
    (a b c : FileReporter) (A C : Analysis)
    (hig : config.ignore_errors = true)
    (hinc : config.report_include = []) (homi : config.report_omit = [])
    (ha : a.analysisResult = Except.ok A)
    (hb : b.analysisResult = Except.error ReportError.noSource)
    (hc : c.analysisResult = Except.ok C)
    (hab : a.filename ≤ b.filename) (hbc : b.filename ≤ c.filename) :
    get_lcov relative_path config [a, b, c] =
      Except.ok ([], fileBlock relative_path a A ++ fileBlock relative_path c C) := by
  have hfilt : applyFilters config [a, b, c] = [a, b, c] := by
    simp [applyFilters, hinc, homi]
  have hgfr : get_file_reporters config [a, b, c] = Except.ok [a, b, c] := by
    simp [get_file_reporters, hfilt]
  have hsorted : sortReporters [a, b, c] = [a, b, c] := by
    apply List.Sorted.insertionSort_eq
    refine List.Pairwise.cons ?_ (List.Pairwise.cons ?_ (List.Pairwise.cons ?_ List.Pairwise.nil))
    · intro x hx
      rcases List.mem_cons.1 hx with rfl | hx
      · exact hab
      · rcases List.mem_cons.1 hx with rfl | hx
        · exact le_trans hab hbc
        · exact absurd hx (List.not_mem_nil x)
    · intro x hx
      rcases List.mem_cons.1 hx with rfl | hx
      · exact hbc
      · exact absurd hx (List.not_mem_nil x)
    · intro x hx
      exact absurd hx (List.not_mem_nil x)
  unfold get_lcov
  rw [hgfr]
  dsimp only
  rw [hsorted]
  simp [process_files, ha, hb, hc, hig]

/-- Witness for C5: three concrete files, the middle one with an unreachable
source, with `ignore_errors` enabled. -/
theorem C5_ignore_missing_source_witness :
    get_lcov false ⟨[], [], true⟩
        [⟨"a.py", "a.py", true, 1, Except.ok ⟨{1}, ∅⟩⟩,
         ⟨"b.py", "b.py", true, 1, Except.error ReportError.noSource⟩,
         ⟨"c.py", "c.py", true, 1, Except.ok ⟨{1}, {1}⟩⟩] =
      Except.ok ([],
        fileBlock false ⟨"a.py", "a.py", true, 1, Except.ok ⟨{1}, ∅⟩⟩ ⟨{1}, ∅⟩ ++
        fileBlock false ⟨"c.py", "c.py", true, 1, Except.ok ⟨{1}, {1}⟩⟩ ⟨{1}, {1}⟩) :=
  C5_ignore_missing_source false ⟨[], [], true⟩
    ⟨"a.py", "a.py", true, 1, Except.ok ⟨{1}, ∅⟩⟩
    ⟨"b.py", "b.py", true, 1, Except.error ReportError.noSource⟩
    ⟨"c.py", "c.py", true, 1, Except.ok ⟨{1}, {1}⟩⟩
    ⟨{1}, ∅⟩ ⟨{1}, {1}⟩ rfl rfl rfl rfl rfl rfl (by simp; decide) (by simp; decide)

/-- Counterexample to claim C6 as stated: the message carried by the
exception raised when filtering leaves zero files is "No data to report."
(with a trailing period), not the claimed "No data to report". -/
theorem C6_message_counterexample :
    get_file_reporters ⟨[], [], false⟩ [] =
      Except.error (ReportError.coverageException "No data to report.") ∧
    "No data to report." ≠ "No data to report" := by
  constructor
  · rfl
  · decide

/-- Claim C6 (amended): if, after include and omit filtering, zero files
remain, listing the eligible files fails with the exception carrying the
message "No data to report." (trailing period), and report generation
propagates that error, producing no output. -/
theorem C6_empty_report_error (relative_path : Bool) (config : Config)
    (file_reporters : List FileReporter)
    (hempty : applyFilters config file_reporters = []) :
    get_file_reporters config file_reporters =
      Except.error (ReportError.coverageException "No data to report.") ∧
    get_lcov relative_path config file_reporters =
      Except.error (ReportError.coverageException "No data to report.") := by
  have h1 : get_file_reporters config file_reporters =
      Except.error (ReportError.coverageException "No data to report.") := by
    simp [get_file_reporters, hempty]
  refine ⟨h1, ?_⟩
  unfold get_lcov
  rw [h1]

/-- Witness for C6 (amended) on an empty reporter list. -/
theorem C6_empty_report_error_witness :
    get_file_reporters ⟨[], [], false⟩ [] =
      Except.error (ReportError.coverageException "No data to report.") ∧
    get_lcov false ⟨[], [], false⟩ [] =
      Except.error (ReportError.coverageException "No data to report.") :=
  C6_empty_report_error false ⟨[], [], false⟩ [] rfl

/-- Claim C7: a file whose path matches at least one include pattern and at
least one omit pattern is excluded from the eligible-file list (the omit
filter, applied after the include filter, takes precedence) and contributes
no block to the output. -/
theorem C7_omit_precedence (relative_path : Bool) (config : Config)
    (fr : FileReporter) (file_reporters : List FileReporter)
    (hinc : matcherMatch config.report_include fr.filename = true)
    (homi : matcherMatch config.report_omit fr.filename = true) :
    fr ∉ applyFilters config file_reporters ∧
    get_lcov relative_path config (fr :: file_reporters) =
      get_lcov relative_path config file_reporters := by
  have hincne : config.report_include.isEmpty = false := by
    cases hh : config.report_include with
    | nil =>
      rw [hh] at hinc
      simp [matcherMatch] at hinc
    | cons p ps => rfl
  have homine : config.report_omit.isEmpty = false := by
    cases hh : config.report_omit with
    | nil =>
      rw [hh] at homi
      simp [matcherMatch] at homi
    | cons p ps => rfl
  have hafx : ∀ l : List FileReporter, applyFilters config l =
      (l.filter (fun x => matcherMatch config.report_include x.filename)).filter
        (fun x => !matcherMatch config.report_omit x.filename) := by
    intro l
    simp [applyFilters, hincne, homine]
  have happ : applyFilters config (fr :: file_reporters) =
      applyFilters config file_reporters := by
    rw [hafx, hafx, List.filter_cons, hinc]
    simp only [if_true]
    rw [List.filter_cons, homi]
    simp
  constructor
  · rw [hafx]
    intro hmem
    have hh := (List.mem_filter.1 hmem).2
    rw [homi] at hh
    simp at hh
  · simp only [get_lcov, get_file_reporters, happ]

/-- Witness for C7: a file matched by both an include and an omit pattern is
excluded and contributes nothing. -/
theorem C7_omit_precedence_witness :
    (⟨"v.py", "v.py", true, 0, Except.ok ⟨∅, ∅⟩⟩ : FileReporter) ∉
      applyFilters ⟨[fun _ => true], [fun s => s == "v.py"], false⟩
        [⟨"v.py", "v.py", true, 0, Except.ok ⟨∅, ∅⟩⟩] ∧
    get_lcov false ⟨[fun _ => true], [fun s => s == "v.py"], false⟩
        [⟨"v.py", "v.py", true, 0, Except.ok ⟨∅, ∅⟩⟩,
         ⟨"v.py", "v.py", true, 0, Except.ok ⟨∅, ∅⟩⟩] =
      get_lcov false ⟨[fun _ => true], [fun s => s == "v.py"], false⟩
        [⟨"v.py", "v.py", true, 0, Except.ok ⟨∅, ∅⟩⟩] :=
  C7_omit_precedence false ⟨[fun _ => true], [fun s => s == "v.py"], false⟩
    ⟨"v.py", "v.py", true, 0, Except.ok ⟨∅, ∅⟩⟩
    [⟨"v.py", "v.py", true, 0, Except.ok ⟨∅, ∅⟩⟩] rfl rfl

/-- Claim C8: report generation is deterministic: presenting the same dataset
(files with pairwise distinct filenames) in any order produces identical
output, because eligible files are iterated in sorted order. -/
theorem C8_deterministic_output (relative_path : Bool) (config : Config)
    (l₁ l₂ : List FileReporter) (hperm : l₁.Perm l₂)
    (hnd : l₁.Pairwise (fun a b => a.filename ≠ b.filename)) :
    get_lcov relative_path config l₁ = get_lcov relative_path config l₂ := by
  have hfp : (applyFilters config l₁).Perm (applyFilters config l₂) :=
    applyFilters_perm config l₁ l₂ hperm
  have hnd₁ : (applyFilters config l₁).Pairwise (fun a b => a.filename ≠ b.filename) :=
    List.Pairwise.sublist (applyFilters_sublist config l₁) hnd
  have hsort : sortReporters (applyFilters config l₁) =
      sortReporters (applyFilters config l₂) :=
    sortReporters_eq_of_perm _ _ hfp hnd₁
  have hemp : ((applyFilters config l₁).isEmpty = true) ↔
      ((applyFilters config l₂).isEmpty = true) := by
    simp only [List.isEmpty_iff]
    exact ⟨fun h => (h ▸ hfp).symm.eq_nil, fun h => ((h ▸ hfp.symm).symm.eq_nil)⟩
  by_cases h1 : (applyFilters config l₁).isEmpty = true
  · have h2 : (applyFilters config l₂).isEmpty = true := hemp.1 h1
    simp [get_lcov, get_file_reporters, h1, h2]
  · have h2 : ¬(applyFilters config l₂).isEmpty = true := fun hh => h1 (hemp.2 hh)
    simp at h1 h2
    simp [get_lcov, get_file_reporters, h1, h2, hsort]

/-- Witness for C8: the same two-file dataset presented in both orders
produces identical output. -/
theorem C8_deterministic_output_witness :
    get_lcov false ⟨[], [], false⟩
        [⟨"b.py", "b.py", true, 1, Except.ok ⟨{1}, ∅⟩⟩,
         ⟨"a.py", "a.py", true, 1, Except.ok ⟨{1}, {1}⟩⟩] =
      get_lcov false ⟨[], [], false⟩
        [⟨"a.py", "a.py", true, 1, Except.ok ⟨{1}, {1}⟩⟩,
         ⟨"b.py", "b.py", true, 1, Except.ok ⟨{1}, ∅⟩⟩] :=
  C8_deterministic_output false ⟨[], [], false⟩
    [⟨"b.py", "b.py", true, 1, Except.ok ⟨{1}, ∅⟩⟩,
     ⟨"a.py", "a.py", true, 1, Except.ok ⟨{1}, {1}⟩⟩]
    [⟨"a.py", "a.py", true, 1, Except.ok ⟨{1}, {1}⟩⟩,
     ⟨"b.py", "b.py", true, 1, Except.ok ⟨{1}, ∅⟩⟩]
    (by decide) (by decide)

/-- Claim C9: the write-to-file operation persists only a fully built report
string: `get_lcov` runs to completion before the destination file is opened,
so when report construction raises a fatal error nothing at all is written,
and on success exactly the complete report text is written. -/
theorem C9_no_partial_write (relative_path : Bool) (config : Config)
    (file_reporters : List FileReporter) (output_file_path : String) :
    (∀ e, get_lcov relative_path config file_reporters = Except.error e →
      create_lcov relative_path config file_reporters output_file_path = ([], some e)) ∧
    (∀ result, get_lcov relative_path config file_reporters = Except.ok result →
      create_lcov relative_path config file_reporters output_file_path =
        ([⟨output_file_path, renderOutput result.2⟩], none)) := by
  constructor
  · intro e h
    unfold create_lcov
    rw [h]
  · intro result h
    unfold create_lcov
    rw [h]

/-- Witness for C9: a run whose report construction fails (no data) performs
no write at all. -/
theorem C9_no_partial_write_witness :
    create_lcov false ⟨[], [], false⟩ [] "lcov.info" =
      ([], some (ReportError.coverageException "No data to report.")) :=
  (C9_no_partial_write false ⟨[], [], false⟩ [] "lcov.info").1
    (ReportError.coverageException "No data to report.") rfl

/-- Claim C10: a file whose analysis raises `NotPython` while its
`should_be_python()` check is false is skipped silently — no error and no
warning, even with `ignore_errors` disabled — and iteration continues with
the remaining files. -/
theorem C10_notpython_swallowed (relative_path : Bool) (config : Config)
    (fr : FileReporter) (rest : List FileReporter)
    (hnp : fr.analysisResult = Except.error ReportError.notPython)
    (hsbp : fr.shouldBePython = false) :
    process_files relative_path config (fr :: rest) =
      process_files relative_path config rest := by
  simp [process_files, hnp, hsbp]

/-- Witness for C10: a non-Python file that fails to parse is skipped with
`ignore_errors` disabled. -/
theorem C10_notpython_swallowed_witness :
    process_files false ⟨[], [], false⟩
        [⟨"x.bin", "x.bin", false, 3, Except.error ReportError.notPython⟩] =
      process_files false ⟨[], [], false⟩ [] :=
  C10_notpython_swallowed false ⟨[], [], false⟩
    ⟨"x.bin", "x.bin", false, 3, Except.error ReportError.notPython⟩ [] rfl rfl

end CoverageLcov
